import Mathlib

/-!
Shallow embedding of the neurotune candidate-evaluation pipeline
(`neurotune/simulation/nineline.py` and `neurotune/tuner/__init__.py`),
with theorems checking the natural-language specification against it.

Python strings are Lean `String`s; `str.split('.')` is embedded as an
executable split on the character list; Python numbers are `ℚ` (their
exact values never matter to the properties below); `10 ** val` is kept
symbolic (`Applied.pow10`), since only *which* transform is applied is
specified.  Exceptions are an explicit `PyError` value threaded through
`Except`; `__debug__` is an explicit `debug : Bool` (Python strips
`assert` statements and takes the `raise` branch of
`Tuner._evaluate_candidate` exactly when `__debug__` is true).
Side effects (engine calls, file writes) are recorded as event traces.
-/

/-- The Python exception kinds the embedded code can raise.  `runtimeError`
stands for an arbitrary error injected by an external collaborator
(engine, objective). -/
inductive PyError where
  | attributeError
  | valueError
  | typeError
  | assertionError
  | runtimeError (msg : String)
deriving DecidableEq

def pyErrStr : PyError → String
  | .attributeError => "AttributeError: tuple object has no attribute split"
  | .valueError => "ValueError: too many values to unpack"
  | .typeError => "TypeError: cannot concatenate str and float objects"
  | .assertionError => "AssertionError: length of candidate and genome keys do not match"
  | .runtimeError msg => msg

/-- `traceback.format_exc()` for the current exception: always starts with
the header line, hence never empty. -/
def formatExc (e : PyError) : String :=
  "Traceback (most recent call last):\n" ++ pyErrStr e

/-- A tunable parameter: `neurotune` passes objects with `.name` and
`.log_scale` attributes. -/
structure TuneParameter where
  name : String
  log_scale : Bool
deriving DecidableEq

/-- `NineLineSimulation.set_tune_parameters`: the loop that builds the
parallel `genome_keys` / `log_scales` lists (nineline.py lines 22-32).
`'.' in param.name` is character membership since the needle is one
character. -/
def set_tune_parameters (default_seg : String) (tune_parameters : List TuneParameter) :
    List String × List Bool :=
  tune_parameters.foldl
    (fun acc param =>
      let key := if '.' ∈ param.name.toList then param.name
                 else default_seg ++ "." ++ param.name
      (acc.1 ++ [key], acc.2 ++ [param.log_scale]))
    ([], [])

/-- Python `s.split('.')` on the underlying character list: splitting the
empty string gives `[[]]`, and every separator starts a new chunk. -/
def splitOnDot : List Char → List (List Char)
  | [] => [[]]
  | c :: rest =>
    let r := splitOnDot rest
    if c = '.' then [] :: r
    else
      match r with
      | [] => [[c]]
      | h :: t => (c :: h) :: t

/-- Python `rec.split('.')` for a string. -/
def pySplit (s : String) : List String :=
  (splitOnDot s.toList).map (fun l => String.mk l)

/-- One entry of `setup.record_variables`: either a not-yet-resolved
recording request (`None` or a string), or the `(variable, segname,
component)` tuple that `prepare_simulations` writes back in place. -/
inductive RecVar where
  | req : Option String → RecVar
  | resolved : String × String × Option String → RecVar
deriving DecidableEq

/-- The body of the resolution loop in
`NineLineSimulation.prepare_simulations` (nineline.py lines 42-58) for a
single entry.  A `None` request records voltage in the default segment; a
string is split on dots and destructured by part count — destructuring
three names from four or more parts raises `ValueError`.  An entry that
was already resolved is a tuple, and `tuple.split` raises
`AttributeError`. -/
def resolve_record (default_seg : String) :
    RecVar → Except PyError (String × String × Option String)
  | .req none => .ok ("v", default_seg, none)
  | .req (some rec) =>
    match pySplit rec with
    | [var] => .ok (var, default_seg, none)
    | [segname, var] => .ok (var, segname, none)
    | [segname, component, var] => .ok (var, segname, some component)
    | _ => .error .valueError
  | .resolved _ => .error .attributeError

/-- The in-place update `setup.record_variables[i] = (var, segname,
component)` over a whole setup, sequentially, stopping at the first
raised exception. -/
def resolve_setup (default_seg : String) : List RecVar → Except PyError (List RecVar)
  | [] => .ok []
  | rv :: rest => do
    let t ← resolve_record default_seg rv
    let rest' ← resolve_setup default_seg rest
    pure (RecVar.resolved t :: rest')

/-- A value pushed onto the cell by `setattr`: either the raw candidate
value or `10 ** val` kept symbolic. -/
inductive Applied where
  | plain : ℚ → Applied
  | pow10 : ℚ → Applied
deriving DecidableEq

/-- `NineLineSimulation._set_candidate_params` (nineline.py lines
112-125): the `assert` executes only when `__debug__` is true, and the
`zip` of the three lists truncates to the shortest.  The result is the
ordered list of `setattr(self.cell, key, val)` calls. -/
def set_candidate_params (debug : Bool) (genome_keys : List String)
    (log_scales : List Bool) (candidate : List ℚ) :
    Except PyError (List (String × Applied)) :=
  if debug ∧ candidate.length ≠ genome_keys.length then .error .assertionError
  else .ok ((genome_keys.zip (candidate.zip log_scales)).map
    (fun kvl => (kvl.1, if kvl.2.2 then Applied.pow10 kvl.2.1 else Applied.plain kvl.2.1)))

/-- The list of applied `(key, value)` pairs of a successful
`_set_candidate_params` call (empty when it raised). -/
def applied_params (r : Except PyError (List (String × Applied))) : List (String × Applied) :=
  match r with
  | .ok t => t
  | .error _ => []

def isOkE {α : Type} (r : Except PyError α) : Bool :=
  match r with
  | .ok _ => true
  | .error _ => false

/-- A `Simulation.SimulationSetup`: ordered recording requests and the
record time (already in milliseconds, as after the `pq.Quantity`
conversion). -/
structure Setup where
  record_variables : List RecVar
  record_time : ℚ
deriving DecidableEq

/-- The state of a `NineLineSimulation` relevant to the claims. -/
structure NineSim where
  default_seg : String
  genome_keys : List String
  log_scales : List Bool
  setups : List Setup
deriving DecidableEq

/-- Observable side effects on the external engine:
`self.cell = self.celltype()` (a fresh engine instance),
`self.cell.record(...)`, `nineline_controller.reset()`,
`setattr(self.cell, key, val)` and `nineline_controller.run(t)`. -/
inductive SimEvent where
  | createCell
  | recordSite (rv : RecVar)
  | reset
  | setParam (key : String) (val : Applied)
  | engineRun (t : ℚ)
deriving DecidableEq

/-- `NineLineSimulation._prepare` (nineline.py lines 94-110): instantiate
a fresh cell, then attach one recorder per record variable. -/
def prepare_events (setup : Setup) : List SimEvent :=
  SimEvent.createCell :: setup.record_variables.map SimEvent.recordSite

/-- The resolution loop of `prepare_simulations` over all setups. -/
def resolve_setups (default_seg : String) : List Setup → Except PyError (List Setup)
  | [] => .ok []
  | st :: rest => do
    let rv ← resolve_setup default_seg st.record_variables
    let rest' ← resolve_setups default_seg rest
    pure ({ st with record_variables := rv } :: rest')

/-- `NineLineSimulation.prepare_simulations` (nineline.py lines 34-64):
resolve every recording request in place, then — only when there is
exactly one setup — `_prepare` that setup.  Returns the updated
simulation object and the engine events emitted. -/
def prepare_simulations (sim : NineSim) : Except PyError (NineSim × List SimEvent) := do
  let newSetups ← resolve_setups sim.default_seg sim.setups
  let sim' := { sim with setups := newSetups }
  match newSetups with
  | [st] => pure (sim', prepare_events st)
  | _ => pure (sim', [])

/-- `NineLineSimulation.run` (nineline.py lines 66-92): with several
setups, re-`_prepare` the targeted setup (fresh instance); with exactly
one, just reset the controller.  Then apply the candidate parameters and
run the engine for the record time.  Returns the event trace and the
recordings (`cell.get_recording` over the record variables) or the
exception. -/
def nineRun (debug : Bool) (sim : NineSim) (candidate : List ℚ) (setup : Setup) :
    List SimEvent × Except PyError (List RecVar) :=
  let ev1 := if sim.setups.length ≠ 1 then prepare_events setup else [SimEvent.reset]
  match set_candidate_params debug sim.genome_keys sim.log_scales candidate with
  | .error e => (ev1, .error e)
  | .ok assigns =>
    (ev1 ++ assigns.map (fun kv => SimEvent.setParam kv.1 kv.2) ++
       [SimEvent.engineRun setup.record_time],
     .ok setup.record_variables)

/-- Number of fresh engine instances created in a trace. -/
def countCreate (l : List SimEvent) : Nat :=
  (l.filter (fun e => match e with | SimEvent.createCell => true | _ => false)).length

/- ------------------------------------------------------------------ -/
/- Embedding of neurotune/tuner/__init__.py                            -/
/- ------------------------------------------------------------------ -/

/-- A Python value as far as the tuner's filename construction is
concerned: candidate entries are floats, parameter names are strings. -/
inductive PyVal where
  | pstr : String → PyVal
  | pfloat : ℚ → PyVal
deriving DecidableEq

/-- Python 2 `s + c` with `s` a `str`: concatenation when `c` is a
string, `TypeError` when it is a float. -/
def pyAddStr (s : String) : PyVal → Except PyError String
  | .pstr t => .ok (s ++ t)
  | .pfloat _ => .error .typeError

/-- The list comprehension `[p.name + '=' + c for p, c in
zip(self.tune_parameters, candidate)]` (tuner/__init__.py lines 75-76);
the `zip` truncates to the shorter list and the first `TypeError`
propagates. -/
def filename_parts : List TuneParameter → List PyVal → Except PyError (List String)
  | p :: ps, c :: cs => do
    let s ← pyAddStr (p.name ++ "=") c
    let rest ← filename_parts ps cs
    pure (s :: rest)
  | _, _ => .ok []

/-- Python `'_'.join(parts)`. -/
def joinSep (sep : String) : List String → String
  | [] => ""
  | [x] => x
  | x :: xs => x ++ sep ++ joinSep sep xs

/-- `record_filename` of `Tuner._evaluate_candidate`:
`'_'.join([p.name + '=' + c for p, c in zip(...)]) + '.pkl'`. -/
def record_filename (tune_parameters : List TuneParameter) (candidate : List PyVal) :
    Except PyError String :=
  (filename_parts tune_parameters candidate).map (fun parts => joinSep "_" parts ++ ".pkl")

/-- `EvaluationException` (tuner/__init__.py lines 7-13): carries the
objective, the candidate, the recordings (or `None`) and a traceback
string. -/
structure EvaluationException (O R : Type) where
  objective : O
  candidate : List PyVal
  recordings : Option R
  traceback : String

/-- `EvaluationException.__init__`: the traceback defaults to
`traceback.format_exc()` of the ambient (just-caught) exception when
`tback` is `None`. -/
def mkEvaluationException {O R : Type} (objective : O) (candidate : List PyVal)
    (recordings : Option R) (tback : Option String) (ambient : PyError) :
    EvaluationException O R :=
  ⟨objective, candidate, recordings, tback.getD (formatExc ambient)⟩

/-- Outcome of `Tuner._evaluate_candidate`: a fitness value, a raised
`EvaluationException` (non-debug mode), or the original exception
re-raised (debug mode). -/
inductive EvalResult (O R F : Type) where
  | ok : F → EvalResult O R F
  | wrapped : EvaluationException O R → EvalResult O R F
  | raw : PyError → EvalResult O R F

/-- A file written by the persistence step: path and pickled
`(candidate, recordings)` pair. -/
def FileWrite (R : Type) : Type := String × (List PyVal × R)

/-- The persistence step of `Tuner._evaluate_candidate` (lines 74-78):
when a recordings directory is configured, build the filename and write
`(candidate, recordings)` under it. -/
def save_step {R : Type} (tune_parameters : List TuneParameter)
    (save_recordings : Option String) (candidate : List PyVal) (recordings : R) :
    Except PyError (List (FileWrite R)) :=
  match save_recordings with
  | none => .ok []
  | some dir =>
    match record_filename tune_parameters candidate with
    | .error e => .error e
    | .ok fn => .ok [(dir ++ "/" ++ fn, (candidate, recordings))]

/-- `Tuner._evaluate_candidate` (tuner/__init__.py lines 66-88).  The
`try` body runs the simulation, optionally persists the recordings, then
scores them.  On any exception: re-raise it when `__debug__` (debug
mode), otherwise wrap objective, candidate, the recordings obtained so
far (`None` when `recordings` was not yet bound) and the formatted
traceback into an `EvaluationException`.  Returns the outcome and the
files written. -/
def evaluate_candidate {O R F : Type} (debug : Bool) (objective : O)
    (tune_parameters : List TuneParameter) (save_recordings : Option String)
    (run : List PyVal → Except PyError R) (fitness : R → Except PyError F)
    (candidate : List PyVal) : EvalResult O R F × List (FileWrite R) :=
  match run candidate with
  | .error e =>
    (if debug then .raw e
     else .wrapped (mkEvaluationException objective candidate none none e), [])
  | .ok recordings =>
    match save_step tune_parameters save_recordings candidate recordings with
    | .error e =>
      (if debug then .raw e
       else .wrapped (mkEvaluationException objective candidate (some recordings) none e), [])
    | .ok writes =>
      match fitness recordings with
      | .error e =>
        (if debug then .raw e
         else .wrapped (mkEvaluationException objective candidate (some recordings) none e),
         writes)
      | .ok f => (.ok f, writes)

/-- An exception escaping `Tuner._evaluate_all_candidates`. -/
inductive Raised (O R : Type) where
  | wrapped : EvaluationException O R → Raised O R
  | raw : PyError → Raised O R

/-- `Tuner._evaluate_all_candidates` (tuner/__init__.py lines 90-99): a
plain list comprehension over `_evaluate_candidate`; nothing catches an
exception raised by a candidate, so the first one escapes, carrying
whatever files were written up to and including that candidate. -/
def evaluate_all_candidates {O R F : Type} (debug : Bool) (objective : O)
    (tune_parameters : List TuneParameter) (save_recordings : Option String)
    (run : List PyVal → Except PyError R) (fitness : R → Except PyError F) :
    List (List PyVal) → Except (Raised O R) (List F) × List (FileWrite R)
  | [] => (.ok [], [])
  | c :: rest =>
    match evaluate_candidate debug objective tune_parameters save_recordings run fitness c with
    | (.ok f, ws) =>
      let r := evaluate_all_candidates debug objective tune_parameters save_recordings
        run fitness rest
      (r.1.map (fun fs => f :: fs), ws ++ r.2)
    | (.wrapped w, ws) => (.error (.wrapped w), ws)
    | (.raw e, ws) => (.error (.raw e), ws)

/- ------------------------------------------------------------------ -/
/- Helper lemmas about the split                                       -/
/- ------------------------------------------------------------------ -/

theorem splitOnDot_ne_nil (l : List Char) : splitOnDot l ≠ [] := by
  induction l with
  | nil => simp [splitOnDot]
  | cons c rest ih =>
    simp only [splitOnDot]
    by_cases hc : c = '.'
    · simp [hc]
    · simp only [hc, if_false]
      cases h : splitOnDot rest with
      | nil => simp
      | cons a t => simp

theorem splitOnDot_no_dot (l : List Char) (h : '.' ∉ l) : splitOnDot l = [l] := by
  induction l with
  | nil => rfl
  | cons c rest ih =>
    have hc : c ≠ '.' := fun hc => h (hc ▸ List.mem_cons_self c rest)
    have hrest : '.' ∉ rest := fun hm => h (List.mem_cons_of_mem c hm)
    simp [splitOnDot, hc, ih hrest]

theorem splitOnDot_append_dot (a b : List Char) (ha : '.' ∉ a) :
    splitOnDot (a ++ '.' :: b) = a :: splitOnDot b := by
  induction a with
  | nil => simp [splitOnDot]
  | cons c rest ih =>
    have hc : c ≠ '.' := fun hc => ha (hc ▸ List.mem_cons_self c rest)
    have hrest : '.' ∉ rest := fun hm => ha (List.mem_cons_of_mem c hm)
    simp [splitOnDot, hc, ih hrest]

theorem data_app (s t : String) : (s ++ t).data = s.data ++ t.data :=
  String.data_append s t

theorem mk_data (s : String) : String.mk s.data = s := rfl

theorem stp_foldl (d : String) (ps : List TuneParameter) (acc : List String × List Bool) :
    ps.foldl
      (fun acc param =>
        let key := if '.' ∈ param.name.toList then param.name
                   else d ++ "." ++ param.name
        (acc.1 ++ [key], acc.2 ++ [param.log_scale])) acc =
    (acc.1 ++ ps.map (fun p => if '.' ∈ p.name.toList then p.name else d ++ "." ++ p.name),
     acc.2 ++ ps.map (fun p => p.log_scale)) := by
  induction ps generalizing acc with
  | nil => simp
  | cons p rest ih =>
    rw [List.foldl_cons, ih]
    simp

/-- C7: registration derives, in order, `genome_key = name` when the name
contains a dot and `default_seg ++ "." ++ name` otherwise, and the
genome-key and log-scale lists are index-aligned with (and as long as)
the input parameter list. -/
theorem c7_genome_key_registration (d : String) (ps : List TuneParameter) :
    (set_tune_parameters d ps).1 =
      ps.map (fun p => if '.' ∈ p.name.toList then p.name else d ++ "." ++ p.name)
  ∧ (set_tune_parameters d ps).2 = ps.map (fun p => p.log_scale)
  ∧ (set_tune_parameters d ps).1.length = ps.length
  ∧ (set_tune_parameters d ps).2.length = ps.length := by
  have h : set_tune_parameters d ps =
      (ps.map (fun p => if '.' ∈ p.name.toList then p.name else d ++ "." ++ p.name),
       ps.map (fun p => p.log_scale)) := by
    rw [set_tune_parameters]
    simpa using stp_foldl d ps ([], [])
  rw [h]
  exact ⟨rfl, rfl, by simp, by simp⟩

/-- C2: the resolution grammar — an absent request resolves to voltage at
the default segment, a dot-free string is a variable at the default
segment, `a.b` is (variable `b`, location `a`), and `a.b.c` is (variable
`c`, location `a`, component `b`). -/
theorem c2_resolution_grammar (d : String) :
    resolve_record d (.req none) = .ok ("v", d, none)
  ∧ (∀ s : String, '.' ∉ s.toList → resolve_record d (.req (some s)) = .ok (s, d, none))
  ∧ (∀ a b : String, '.' ∉ a.toList → '.' ∉ b.toList →
      resolve_record d (.req (some (a ++ "." ++ b))) = .ok (b, a, none))
  ∧ (∀ a b c : String, '.' ∉ a.toList → '.' ∉ b.toList → '.' ∉ c.toList →
      resolve_record d (.req (some (a ++ "." ++ b ++ "." ++ c))) =
        .ok (c, a, some b)) := by
  have hdot : (".".data) = ['.'] := rfl
  refine ⟨rfl, ?_, ?_, ?_⟩
  · intro s hs
    have hs' : ('.' : Char) ∉ s.data := hs
    simp [resolve_record, pySplit, String.toList, splitOnDot_no_dot _ hs', mk_data]
  · intro a b ha hb
    have ha' : ('.' : Char) ∉ a.data := ha
    have hb' : ('.' : Char) ∉ b.data := hb
    have h1 : (a ++ "." ++ b).data = a.data ++ '.' :: b.data := by
      simp [data_app, hdot]
    simp [resolve_record, pySplit, String.toList, h1, splitOnDot_append_dot _ _ ha',
      splitOnDot_no_dot _ hb', mk_data]
  · intro a b c ha hb hc
    have ha' : ('.' : Char) ∉ a.data := ha
    have hb' : ('.' : Char) ∉ b.data := hb
    have hc' : ('.' : Char) ∉ c.data := hc
    have h1 : (a ++ "." ++ b ++ "." ++ c).data =
        a.data ++ '.' :: (b.data ++ '.' :: c.data) := by
      simp [data_app, hdot]
    simp [resolve_record, pySplit, String.toList, h1, splitOnDot_append_dot _ _ ha',
      splitOnDot_append_dot _ _ hb', splitOnDot_no_dot _ hc', mk_data]

theorem c2_resolution_grammar_witness :
    resolve_record "defseg" (.req none) = .ok ("v", "defseg", none)
  ∧ resolve_record "defseg" (.req (some "gNa")) = .ok ("gNa", "defseg", none)
  ∧ resolve_record "defseg" (.req (some ("soma" ++ "." ++ "gNa"))) =
      .ok ("gNa", "soma", none)
  ∧ resolve_record "defseg" (.req (some ("soma" ++ "." ++ "Na" ++ "." ++ "gNa"))) =
      .ok ("gNa", "soma", some "Na") := by
  obtain ⟨h1, h2, h3, h4⟩ := c2_resolution_grammar "defseg"
  exact ⟨h1, h2 "gNa" (by decide), h3 "soma" "gNa" (by decide) (by decide),
    h4 "soma" "Na" "gNa" (by decide) (by decide) (by decide)⟩

/-- C10: a request whose split yields four or more tokens makes the
three-name destructuring raise `ValueError`; no resolved triple is
produced. -/
theorem c10_four_tokens_error (d s : String) (h : 4 ≤ (pySplit s).length) :
    resolve_record d (.req (some s)) = .error .valueError := by
  rcases hl : pySplit s with _ | ⟨a, _ | ⟨b, _ | ⟨c, _ | ⟨e, rest⟩⟩⟩⟩
  · rw [hl] at h; simp at h
  · rw [hl] at h; simp at h
  · rw [hl] at h; simp at h
  · rw [hl] at h; simp at h
  · simp [resolve_record, hl]

theorem c10_four_tokens_error_witness :
    4 ≤ (pySplit "a.b.c.d").length
  ∧ resolve_record "seg" (.req (some "a.b.c.d")) = .error .valueError :=
  ⟨by decide, c10_four_tokens_error "seg" "a.b.c.d" (by decide)⟩

theorem zip3_map_fst (gk : List String) (cand : List ℚ) (ls : List Bool)
    (hlen : cand.length = gk.length) (hls : ls.length = gk.length) :
    ((gk.zip (cand.zip ls)).map
      (fun kvl => (kvl.1, if kvl.2.2 then Applied.pow10 kvl.2.1 else Applied.plain kvl.2.1))).map
        Prod.fst = gk := by
  induction gk generalizing cand ls with
  | nil => simp
  | cons k gs ih =>
    cases cand with
    | nil => simp at hlen
    | cons v cs =>
      cases ls with
      | nil => simp at hls
      | cons b bs =>
        simp only [List.zip_cons_cons, List.map_cons]
        simp only [List.length_cons, Nat.succ.injEq] at hlen hls
        rw [ih cs bs hlen hls]

theorem zip3_get (gk : List String) (cand : List ℚ) (ls : List Bool) (i : Nat)
    (k : String) (v : ℚ) (b : Bool)
    (hk : gk[i]? = some k) (hv : cand[i]? = some v) (hb : ls[i]? = some b) :
    ((gk.zip (cand.zip ls)).map
      (fun kvl => (kvl.1, if kvl.2.2 then Applied.pow10 kvl.2.1 else Applied.plain kvl.2.1)))[i]? =
      some (k, if b then Applied.pow10 v else Applied.plain v) := by
  induction gk generalizing cand ls i with
  | nil => simp at hk
  | cons k0 gs ih =>
    cases cand with
    | nil => simp at hv
    | cons v0 cs =>
      cases ls with
      | nil => simp at hb
      | cons b0 bs =>
        cases i with
        | zero =>
          simp at hk hv hb
          simp [hk, hv, hb]
        | succ j =>
          simp only [List.getElem?_cons_succ] at hk hv hb
          simp only [List.zip_cons_cons, List.map_cons, List.getElem?_cons_succ]
          exact ih cs bs j hk hv hb

/-- C6: with a candidate of the right length, every genome key receives,
at its own index, `10 ** x` when its log-scale flag is set and `x`
otherwise: the applied keys in order are exactly the genome keys (nothing
skipped, nothing repeated), and under distinct keys each key is applied
exactly once. -/
theorem c6_parameter_application (debug : Bool) (gk : List String) (ls : List Bool)
    (cand : List ℚ) (hlen : cand.length = gk.length) (hls : ls.length = gk.length) :
    isOkE (set_candidate_params debug gk ls cand) = true
  ∧ (applied_params (set_candidate_params debug gk ls cand)).map Prod.fst = gk
  ∧ (∀ (i : Nat) (k : String) (v : ℚ) (b : Bool),
      gk[i]? = some k → cand[i]? = some v → ls[i]? = some b →
      (applied_params (set_candidate_params debug gk ls cand))[i]? =
        some (k, if b then Applied.pow10 v else Applied.plain v))
  ∧ (gk.Nodup → ∀ k, k ∈ gk →
      ((applied_params (set_candidate_params debug gk ls cand)).map Prod.fst).count k = 1) := by
  have hok : set_candidate_params debug gk ls cand =
      .ok ((gk.zip (cand.zip ls)).map
        (fun kvl => (kvl.1, if kvl.2.2 then Applied.pow10 kvl.2.1 else Applied.plain kvl.2.1))) := by
    simp [set_candidate_params, hlen]
  refine ⟨by simp [hok, isOkE], ?_, ?_, ?_⟩
  · simp only [hok, applied_params]
    exact zip3_map_fst gk cand ls hlen hls
  · intro i k v b hk hv hb
    simp only [hok, applied_params]
    exact zip3_get gk cand ls i k v b hk hv hb
  · intro hnd k hkmem
    simp only [hok, applied_params, zip3_map_fst gk cand ls hlen hls]
    exact List.count_eq_one_of_mem hnd hkmem

theorem c6_parameter_application_witness :
    ([0.5, 3].length = ["soma.gNa", "soma.gK"].length)
  ∧ isOkE (set_candidate_params true ["soma.gNa", "soma.gK"] [true, false] [0.5, 3]) = true
  ∧ (applied_params (set_candidate_params true ["soma.gNa", "soma.gK"] [true, false]
      [0.5, 3])).map Prod.fst = ["soma.gNa", "soma.gK"]
  ∧ (applied_params (set_candidate_params true ["soma.gNa", "soma.gK"] [true, false]
      [0.5, 3]))[0]? = some ("soma.gNa", Applied.pow10 0.5)
  ∧ (applied_params (set_candidate_params true ["soma.gNa", "soma.gK"] [true, false]
      [0.5, 3]))[1]? = some ("soma.gK", Applied.plain 3)
  ∧ ((applied_params (set_candidate_params true ["soma.gNa", "soma.gK"] [true, false]
      [0.5, 3])).map Prod.fst).count "soma.gNa" = 1 := by
  obtain ⟨h1, h2, h3, h4⟩ :=
    c6_parameter_application true ["soma.gNa", "soma.gK"] [true, false] [0.5, 3]
      (by decide) (by decide)
  exact ⟨by decide, h1, h2, h3 0 _ _ _ rfl rfl rfl, h3 1 _ _ _ rfl rfl rfl,
    h4 (by decide) "soma.gNa" (by decide)⟩

/-- C3 (counterexample): in non-strict mode the length assertion is
stripped, so a mismatched candidate raises nothing — the run completes
and the engine executes. -/
theorem c3_counterexample :
    nineRun false ⟨"soma", ["soma.gNa"], [false], [⟨[RecVar.resolved ("v", "soma", none)], 100⟩]⟩
        [] ⟨[RecVar.resolved ("v", "soma", none)], 100⟩ =
      ([SimEvent.reset, SimEvent.engineRun 100], .ok [RecVar.resolved ("v", "soma", none)]) := by
  rfl

/-- C3 (amended): only in strict (debug) mode does a mismatched candidate
raise an `AssertionError`, before any value is applied and before the
engine runs, and debug-mode errors propagate unwrapped through the
evaluator; in non-strict mode the assertion is disabled, no error is
raised, and the `zip` silently truncates to the common length. -/
theorem c3_length_mismatch (gk : List String) (ls : List Bool) (cand : List ℚ)
    (hmis : cand.length ≠ gk.length) :
    set_candidate_params true gk ls cand = .error .assertionError
  ∧ isOkE (set_candidate_params false gk ls cand) = true
  ∧ (applied_params (set_candidate_params false gk ls cand)).length =
      min gk.length (min cand.length ls.length)
  ∧ (∀ (sim : NineSim) (setup : Setup), sim.genome_keys = gk → sim.log_scales = ls →
      sim.setups.length = 1 →
      nineRun true sim cand setup = ([SimEvent.reset], .error .assertionError))
  ∧ (∀ (O R F : Type) (o : O) (tps : List TuneParameter) (sv : Option String)
       (run2 : List PyVal → Except PyError R) (fit : R → Except PyError F)
       (c : List PyVal) (e : PyError), run2 c = .error e →
       evaluate_candidate true o tps sv run2 fit c = (.raw e, [])) := by
  refine ⟨by simp [set_candidate_params, hmis], by simp [set_candidate_params, isOkE],
    ?_, ?_, ?_⟩
  · simp [set_candidate_params, applied_params, Nat.min_assoc]
  · intro sim setup h1 h2 h3
    simp [nineRun, h1, h2, h3, set_candidate_params, hmis]
  · intro O R F o tps sv run2 fit c e he
    simp [evaluate_candidate, he]

theorem c3_length_mismatch_witness :
    (([] : List ℚ).length ≠ ["soma.gNa"].length)
  ∧ set_candidate_params true ["soma.gNa"] [false] [] = .error .assertionError
  ∧ isOkE (set_candidate_params false ["soma.gNa"] [false] []) = true
  ∧ nineRun true ⟨"soma", ["soma.gNa"], [false], [⟨[], 100⟩]⟩ [] ⟨[], 100⟩ =
      ([SimEvent.reset], .error .assertionError)
  ∧ evaluate_candidate true "obj" [] none
      (fun _ => (.error .assertionError : Except PyError Unit))
      (fun _ => (.ok (0 : ℚ))) [] = (.raw .assertionError, []) := by
  obtain ⟨h1, h2, h3, h4, h5⟩ := c3_length_mismatch ["soma.gNa"] [false] [] (by decide)
  exact ⟨by decide, h1, h2, h4 _ _ rfl rfl rfl,
    h5 String Unit ℚ "obj" [] none _ _ [] .assertionError rfl⟩

theorem formatExc_ne_empty (e : PyError) : formatExc e ≠ "" := by
  intro h
  have hd : ("Traceback (most recent call last):\n" ++ pyErrStr e).data = "".data := by
    have := congrArg String.data h
    simp only [formatExc] at this
    exact this
  rw [String.data_append] at hd
  have hlen := congrArg List.length hd
  rw [List.length_append] at hlen
  have h1 : 0 < ("Traceback (most recent call last):\n".data).length := by decide
  have h2 : ("".data).length = 0 := by decide
  omega

/-- C1: when the simulation, the persistence step, or the objective fails,
non-debug mode raises an `EvaluationException` carrying the objective,
the original candidate, the recordings obtained before the failure (or
`none` when the simulation itself failed) and a non-empty traceback;
debug mode re-raises the original error unchanged. -/
theorem c1_failure_wrapping {O R F : Type} (o : O) (tps : List TuneParameter)
    (sv : Option String) (run2 : List PyVal → Except PyError R)
    (fit : R → Except PyError F) (cand : List PyVal) :
    (∀ e : PyError, run2 cand = .error e →
      evaluate_candidate true o tps sv run2 fit cand = (.raw e, [])
      ∧ evaluate_candidate false o tps sv run2 fit cand =
          (.wrapped ⟨o, cand, none, formatExc e⟩, [])
      ∧ formatExc e ≠ "")
  ∧ (∀ (r : R) (e : PyError), run2 cand = .ok r → save_step tps sv cand r = .error e →
      evaluate_candidate true o tps sv run2 fit cand = (.raw e, [])
      ∧ evaluate_candidate false o tps sv run2 fit cand =
          (.wrapped ⟨o, cand, some r, formatExc e⟩, [])
      ∧ formatExc e ≠ "")
  ∧ (∀ (r : R) (ws : List (FileWrite R)) (e : PyError),
      run2 cand = .ok r → save_step tps sv cand r = .ok ws → fit r = .error e →
      evaluate_candidate true o tps sv run2 fit cand = (.raw e, ws)
      ∧ evaluate_candidate false o tps sv run2 fit cand =
          (.wrapped ⟨o, cand, some r, formatExc e⟩, ws)
      ∧ formatExc e ≠ "") := by
  refine ⟨?_, ?_, ?_⟩
  · intro e he
    exact ⟨by simp [evaluate_candidate, he],
      by simp [evaluate_candidate, he, mkEvaluationException], formatExc_ne_empty e⟩
  · intro r e hr hs
    exact ⟨by simp [evaluate_candidate, hr, hs],
      by simp [evaluate_candidate, hr, hs, mkEvaluationException], formatExc_ne_empty e⟩
  · intro r ws e hr hs hf
    exact ⟨by simp [evaluate_candidate, hr, hs, hf],
      by simp [evaluate_candidate, hr, hs, hf, mkEvaluationException], formatExc_ne_empty e⟩

theorem c1_failure_wrapping_witness :
    evaluate_candidate true "obj" [] none
      (fun _ => (.error (.runtimeError "engine failure") : Except PyError Unit))
      (fun _ => (.ok (0 : ℚ))) [] = (.raw (.runtimeError "engine failure"), [])
  ∧ evaluate_candidate false "obj" [] none
      (fun _ => (.error (.runtimeError "engine failure") : Except PyError Unit))
      (fun _ => (.ok (0 : ℚ))) [] =
      (.wrapped ⟨"obj", [], none, formatExc (.runtimeError "engine failure")⟩, [])
  ∧ formatExc (.runtimeError "engine failure") ≠ "" :=
  (c1_failure_wrapping "obj" [] none
    (fun _ => (.error (.runtimeError "engine failure") : Except PyError Unit))
    (fun _ => (.ok (0 : ℚ))) []).1 (.runtimeError "engine failure") rfl

/-- C9 (code bug): the filename is built by `p.name + '=' + c` with `c` a
candidate float — a `str + float` concatenation, which raises
`TypeError` in Python 2.  With a persistence directory configured, a
successful simulation of a float candidate therefore writes no file and
the evaluation fails (wrapped in non-strict mode), instead of writing
`<dir>/<param>=<value>.pkl` as documented. -/
theorem c9_persistence_type_error :
    record_filename [⟨"gNa", false⟩] [PyVal.pfloat (1/2)] = .error .typeError
  ∧ evaluate_candidate false "obj" [⟨"gNa", false⟩] (some "recs")
      (fun _ => (.ok (0 : ℚ) : Except PyError ℚ)) (fun _ => (.ok (1 : ℚ)))
      [PyVal.pfloat (1/2)] =
      (.wrapped ⟨"obj", [PyVal.pfloat (1/2)], some 0, formatExc .typeError⟩, []) :=
  ⟨rfl, rfl⟩

/-- C4 (counterexample): in non-strict mode the first failing candidate
aborts the whole batch — the wrapped exception escapes the list
comprehension and the second candidate, which would evaluate fine, never
contributes a fitness value. -/
theorem c4_counterexample :
    evaluate_all_candidates false "obj" [] none
      (fun c => match c with
        | [] => (.error (.runtimeError "boom") : Except PyError ℚ)
        | _ => .ok 0)
      (fun _ => (.ok (1 : ℚ)))
      [[], [PyVal.pfloat 1]] =
      (.error (.wrapped ⟨"obj", [], none, formatExc (.runtimeError "boom")⟩), []) :=
  rfl

/-- C4 (amended): the first failing candidate aborts the entire batch in
both modes: the wrapped `EvaluationException` (non-strict mode) or the
original error (strict mode) escapes `_evaluate_all_candidates`, and the
batch result does not depend on the candidates after the failing one. -/
theorem c4_batch_abort {O R F : Type} (debug : Bool) (o : O) (tps : List TuneParameter)
    (sv : Option String) (run2 : List PyVal → Except PyError R)
    (fit : R → Except PyError F) :
    ∀ (pre : List (List PyVal)) (c : List PyVal) (rest : List (List PyVal)),
      (∀ c' ∈ pre, ∃ f w, evaluate_candidate debug o tps sv run2 fit c' = (.ok f, w)) →
      (∀ (w : EvaluationException O R) (ws : List (FileWrite R)),
        evaluate_candidate debug o tps sv run2 fit c = (.wrapped w, ws) →
        (evaluate_all_candidates debug o tps sv run2 fit (pre ++ c :: rest)).1 =
          .error (.wrapped w))
      ∧ (∀ (e : PyError) (ws : List (FileWrite R)),
        evaluate_candidate debug o tps sv run2 fit c = (.raw e, ws) →
        (evaluate_all_candidates debug o tps sv run2 fit (pre ++ c :: rest)).1 =
          .error (.raw e)) := by
  intro pre
  induction pre with
  | nil =>
    intro c rest _
    constructor
    · intro w ws hc
      simp [evaluate_all_candidates, hc]
    · intro e ws hc
      simp [evaluate_all_candidates, hc]
  | cons p pre' ih =>
    intro c rest hpre
    obtain ⟨f, w0, hp⟩ := hpre p (List.mem_cons_self p pre')
    have hpre' : ∀ c' ∈ pre', ∃ f w,
        evaluate_candidate debug o tps sv run2 fit c' = (.ok f, w) :=
      fun c' hc' => hpre c' (List.mem_cons_of_mem p hc')
    obtain ⟨ih1, ih2⟩ := ih c rest hpre'
    constructor
    · intro w ws hc
      have hr := ih1 w ws hc
      simp only [List.cons_append, evaluate_all_candidates, hp, List.append_eq]
      rw [hr]
      rfl
    · intro e ws hc
      have hr := ih2 e ws hc
      simp only [List.cons_append, evaluate_all_candidates, hp, List.append_eq]
      rw [hr]
      rfl

theorem c4_batch_abort_witness :
    (evaluate_all_candidates false "obj" [] none
      (fun c => match c with
        | [] => (.error (.runtimeError "boom") : Except PyError ℚ)
        | _ => .ok 0)
      (fun _ => (.ok (1 : ℚ)))
      ([] ++ [] :: [[PyVal.pfloat 1]])).1 =
      .error (.wrapped ⟨"obj", [], none, formatExc (.runtimeError "boom")⟩) :=
  (c4_batch_abort false "obj" [] none
    (fun c => match c with
      | [] => (.error (.runtimeError "boom") : Except PyError ℚ)
      | _ => .ok 0)
    (fun _ => (.ok (1 : ℚ))) [] [] [[PyVal.pfloat 1]] (by simp)).1
    ⟨"obj", [], none, formatExc (.runtimeError "boom")⟩ [] rfl

theorem countCreate_append (l1 l2 : List SimEvent) :
    countCreate (l1 ++ l2) = countCreate l1 + countCreate l2 := by
  simp [countCreate, List.filter_append]

theorem countCreate_map_setParam (assigns : List (String × Applied)) :
    countCreate (assigns.map (fun kv => SimEvent.setParam kv.1 kv.2)) = 0 := by
  induction assigns with
  | nil => rfl
  | cons a rest ih => simpa [countCreate, List.filter_cons] using ih

theorem countCreate_map_record (rvs : List RecVar) :
    countCreate (rvs.map SimEvent.recordSite) = 0 := by
  induction rvs with
  | nil => rfl
  | cons a rest ih =>
    simp only [countCreate, List.map_cons, List.filter_cons] at ih ⊢
    exact ih

theorem countCreate_prepare (setup : Setup) : countCreate (prepare_events setup) = 1 := by
  have h0 : countCreate (setup.record_variables.map SimEvent.recordSite) = 0 :=
    countCreate_map_record setup.record_variables
  simp only [countCreate] at h0 ⊢
  simp [prepare_events, List.filter_cons, h0]

theorem reset_not_mem_prepare (setup : Setup) :
    SimEvent.reset ∉ prepare_events setup := by
  intro h
  simp only [prepare_events, List.mem_cons, List.mem_map] at h
  rcases h with h | ⟨rv, _, h⟩ <;> exact SimEvent.noConfusion h

theorem prepare_events_length (setup : Setup) :
    (prepare_events setup).length = 1 + setup.record_variables.length := by
  simp [prepare_events, Nat.add_comm]

theorem resolve_setups_length (d : String) (l l' : List Setup)
    (h : resolve_setups d l = .ok l') : l'.length = l.length := by
  induction l generalizing l' with
  | nil =>
    simp only [resolve_setups] at h
    cases h
    rfl
  | cons st rest ih =>
    simp only [resolve_setups] at h
    rcases hrv : resolve_setup d st.record_variables with e | rv <;> rw [hrv] at h
    · exact absurd h (by simp [Bind.bind, Except.bind])
    · rcases hrest : resolve_setups d rest with e | rest' <;> rw [hrest] at h
      · exact absurd h (by simp [Bind.bind, Except.bind])
      · simp only [Bind.bind, Except.bind, pure, Except.pure] at h
        cases h
        simp [ih rest' hrest]

/-- C5: with exactly one setup, the engine instance is created once at
prepare time, and every run only resets the controller and re-applies
parameters without creating a new instance; with several setups, prepare
creates no instance and every run re-prepares the targeted setup —
creating exactly one fresh instance, re-attaching its recorders first,
and never resetting in place. -/
theorem c5_engine_lifecycle (sim sim' : NineSim) (ev : List SimEvent)
    (hprep : prepare_simulations sim = .ok (sim', ev)) :
    (sim.setups.length = 1 →
      countCreate ev = 1
      ∧ ∀ (debug : Bool) (cand : List ℚ) (setup : Setup),
          countCreate (nineRun debug sim' cand setup).1 = 0
          ∧ (nineRun debug sim' cand setup).1.head? = some SimEvent.reset
          ∧ (∀ assigns, set_candidate_params debug sim'.genome_keys sim'.log_scales cand =
                .ok assigns →
              (nineRun debug sim' cand setup).1 =
                [SimEvent.reset] ++ assigns.map (fun kv => SimEvent.setParam kv.1 kv.2) ++
                  [SimEvent.engineRun setup.record_time]))
  ∧ (1 < sim.setups.length →
      countCreate ev = 0
      ∧ ∀ (debug : Bool) (cand : List ℚ) (setup : Setup),
          countCreate (nineRun debug sim' cand setup).1 = 1
          ∧ (nineRun debug sim' cand setup).1.take (1 + setup.record_variables.length) =
              prepare_events setup
          ∧ SimEvent.reset ∉ (nineRun debug sim' cand setup).1) := by
  simp only [prepare_simulations] at hprep
  rcases hrs : resolve_setups sim.default_seg sim.setups with e | ns <;> rw [hrs] at hprep
  · exact absurd hprep (by simp [Bind.bind, Except.bind])
  · have hlenns : ns.length = sim.setups.length := resolve_setups_length _ _ _ hrs
    constructor
    · intro h1
      obtain ⟨st, rfl⟩ : ∃ st, ns = [st] := by
        cases ns with
        | nil => simp at hlenns; omega
        | cons a t =>
          cases t with
          | nil => exact ⟨a, rfl⟩
          | cons b t2 => simp at hlenns; omega
      simp only [Bind.bind, Except.bind, pure, Except.pure] at hprep
      cases hprep
      refine ⟨countCreate_prepare st, ?_⟩
      intro debug cand setup
      rcases hsp : set_candidate_params debug sim.genome_keys sim.log_scales cand
        with e2 | assigns
      · have hev : (nineRun debug ({ sim with setups := [st] }) cand setup).1 =
            [SimEvent.reset] := by
          simp [nineRun, hsp]
        exact ⟨by rw [hev]; rfl, by rw [hev]; rfl,
          fun assigns2 hassigns => Except.noConfusion hassigns⟩
      · have hev : (nineRun debug ({ sim with setups := [st] }) cand setup).1 =
            [SimEvent.reset] ++ assigns.map (fun kv => SimEvent.setParam kv.1 kv.2) ++
              [SimEvent.engineRun setup.record_time] := by
          simp [nineRun, hsp]
        refine ⟨?_, ?_, ?_⟩
        · rw [hev, countCreate_append, countCreate_append, countCreate_map_setParam]
          rfl
        · rw [hev]
          rfl
        · intro assigns2 hassigns
          injection hassigns with h
          subst h
          exact hev
    · intro h1
      rcases ns with _ | ⟨a, _ | ⟨b, t2⟩⟩
      · simp only [List.length_nil] at hlenns
        omega
      · simp only [List.length_cons, List.length_nil] at hlenns
        omega
      · simp only [Bind.bind, Except.bind, pure, Except.pure] at hprep
        cases hprep
        refine ⟨rfl, ?_⟩
        intro debug cand setup
        have hlne : (a :: b :: t2).length ≠ 1 := by simp
        rcases hsp : set_candidate_params debug sim.genome_keys sim.log_scales cand
          with e2 | assigns
        · have hev : (nineRun debug ({ sim with setups := a :: b :: t2 }) cand setup).1 =
              prepare_events setup := by
            simp [nineRun, hsp, hlne]
          refine ⟨?_, ?_, ?_⟩
          · rw [hev]
            exact countCreate_prepare setup
          · rw [hev, ← prepare_events_length setup, List.take_length]
          · rw [hev]
            exact reset_not_mem_prepare setup
        · have hev : (nineRun debug ({ sim with setups := a :: b :: t2 }) cand setup).1 =
              prepare_events setup ++ assigns.map (fun kv => SimEvent.setParam kv.1 kv.2) ++
                [SimEvent.engineRun setup.record_time] := by
            simp [nineRun, hsp, hlne]
          refine ⟨?_, ?_, ?_⟩
          · rw [hev, countCreate_append, countCreate_append, countCreate_prepare,
              countCreate_map_setParam]
            rfl
          · rw [hev, List.append_assoc, ← prepare_events_length setup, List.take_left]
          · intro hm
            rw [hev] at hm
            rcases List.mem_append.mp hm with hm1 | hm2
            · rcases List.mem_append.mp hm1 with hma | hmb
              · exact reset_not_mem_prepare setup hma
              · obtain ⟨kv, _, hkv⟩ := List.mem_map.mp hmb
                exact SimEvent.noConfusion hkv
            · simp at hm2

theorem c5_engine_lifecycle_witness :
    countCreate [SimEvent.createCell,
      SimEvent.recordSite (RecVar.resolved ("v", "soma", none))] = 1
  ∧ countCreate (nineRun false ⟨"soma", [], [], [⟨[RecVar.resolved ("v", "soma", none)], 100⟩]⟩
      [] ⟨[RecVar.resolved ("v", "soma", none)], 100⟩).1 = 0
  ∧ (nineRun false ⟨"soma", [], [], [⟨[RecVar.resolved ("v", "soma", none)], 100⟩]⟩
      [] ⟨[RecVar.resolved ("v", "soma", none)], 100⟩).1.head? = some SimEvent.reset
  ∧ (nineRun false ⟨"soma", [], [], [⟨[RecVar.resolved ("v", "soma", none)], 100⟩]⟩
      [] ⟨[RecVar.resolved ("v", "soma", none)], 100⟩).1 =
      [SimEvent.reset] ++
        (([] : List (String × Applied)).map (fun kv => SimEvent.setParam kv.1 kv.2)) ++
        [SimEvent.engineRun 100]
  ∧ countCreate ([] : List SimEvent) = 0
  ∧ countCreate (nineRun false ⟨"soma", [], [], [⟨[], 50⟩, ⟨[], 50⟩]⟩
      [] ⟨[RecVar.resolved ("v", "soma", none)], 50⟩).1 = 1
  ∧ (nineRun false ⟨"soma", [], [], [⟨[], 50⟩, ⟨[], 50⟩]⟩
      [] ⟨[RecVar.resolved ("v", "soma", none)], 50⟩).1.take
        (1 + ([RecVar.resolved ("v", "soma", none)] : List RecVar).length) =
      prepare_events ⟨[RecVar.resolved ("v", "soma", none)], 50⟩
  ∧ SimEvent.reset ∉ (nineRun false ⟨"soma", [], [], [⟨[], 50⟩, ⟨[], 50⟩]⟩
      [] ⟨[RecVar.resolved ("v", "soma", none)], 50⟩).1 := by
  have h1 := (c5_engine_lifecycle ⟨"soma", [], [], [⟨[RecVar.req none], 100⟩]⟩
    ⟨"soma", [], [], [⟨[RecVar.resolved ("v", "soma", none)], 100⟩]⟩
    [SimEvent.createCell, SimEvent.recordSite (RecVar.resolved ("v", "soma", none))] rfl).1 rfl
  have h2 := (c5_engine_lifecycle ⟨"soma", [], [], [⟨[], 50⟩, ⟨[], 50⟩]⟩
    ⟨"soma", [], [], [⟨[], 50⟩, ⟨[], 50⟩]⟩ [] rfl).2 (by decide)
  obtain ⟨h1a, h1b⟩ := h1
  obtain ⟨h2a, h2b⟩ := h2
  obtain ⟨hb1, hb2, hb3⟩ := h1b false [] ⟨[RecVar.resolved ("v", "soma", none)], 100⟩
  obtain ⟨hc1, hc2, hc3⟩ := h2b false [] ⟨[RecVar.resolved ("v", "soma", none)], 50⟩
  exact ⟨h1a, hb1, hb2, hb3 [] rfl, h2a, hc1, hc2, hc3⟩

/-- C8 (counterexample): resolution is not idempotent — a first resolution
pass succeeds and stores a triple, and running the resolution step again
on the already-resolved setup raises `AttributeError` (the tuple has no
`split`) instead of leaving the triple unchanged. -/
theorem c8_counterexample :
    resolve_setup "soma" [RecVar.req (some "soma.Na.gNa")] =
      .ok [RecVar.resolved ("gNa", "soma", some "Na")]
  ∧ resolve_setup "soma" [RecVar.resolved ("gNa", "soma", some "Na")] =
      .error .attributeError :=
  ⟨rfl, rfl⟩

/-- C8 (amended): resolution must run exactly once per setup: re-running
the resolution step on an already-resolved entry raises
`AttributeError`, and a resolution pass over a setup containing any
resolved entry raises instead of succeeding. -/
theorem c8_not_idempotent (d : String) :
    (∀ t : String × String × Option String,
      resolve_record d (RecVar.resolved t) = .error .attributeError)
  ∧ (∀ l : List RecVar, (∃ t, RecVar.resolved t ∈ l) →
      isOkE (resolve_setup d l) = false) := by
  refine ⟨fun t => rfl, ?_⟩
  intro l
  induction l with
  | nil =>
    rintro ⟨t, ht⟩
    simp at ht
  | cons rv rest ih =>
    rintro ⟨t, ht⟩
    rcases List.mem_cons.mp ht with h | h
    · rw [← h]
      simp [resolve_setup, resolve_record, isOkE, Bind.bind, Except.bind]
    · rcases hrv : resolve_record d rv with e | tt
      · simp [resolve_setup, hrv, isOkE, Bind.bind, Except.bind]
      · have hrest := ih ⟨t, h⟩
        rcases hrest' : resolve_setup d rest with e | l2
        · simp [resolve_setup, hrv, hrest', isOkE, Bind.bind, Except.bind]
        · rw [hrest'] at hrest
          simp [isOkE] at hrest

theorem c8_not_idempotent_witness :
    resolve_record "soma" (RecVar.resolved ("gNa", "soma", some "Na")) =
      .error .attributeError
  ∧ isOkE (resolve_setup "soma" [RecVar.resolved ("gNa", "soma", some "Na")]) = false :=
  ⟨(c8_not_idempotent "soma").1 ("gNa", "soma", some "Na"),
   (c8_not_idempotent "soma").2 [RecVar.resolved ("gNa", "soma", some "Na")]
     ⟨("gNa", "soma", some "Na"), List.mem_singleton.mpr rfl⟩⟩
